import Mathlib

/-!
Verification development for the cs2-cdn selective archive synchronization
pipeline (src/index.ts, current revision). The definitions below are a
shallow embedding of the TypeScript source: JavaScript strings are modelled
as Lean `String`, the in-memory vpk directory as a list of entries mapping a
logical path to its archive (segment) index, the filesystem as an explicit
list of present paths, and external-tool invocations as parameters
describing their outcome. Behaviour that throws (promise rejection,
RangeError from `String.repeat`) is modelled with `Except`/`Option`.
-/

namespace Cs2Cdn

/-! ## String primitives (semantics of the JavaScript string operations used) -/

/-- Semantics of JavaScript `s.startsWith(pre)`: the first `pre.length`
characters of `s` are exactly `pre`. -/
def startsWithB (s pre : String) : Bool :=
  decide (s.data.take pre.data.length = pre.data)

/-- Semantics of JavaScript `s.endsWith(t)`: the last `t.length` characters
of `s` are exactly `t`. -/
def endsWithB (s t : String) : Bool :=
  decide (t.data.length ≤ s.data.length ∧
    s.data.drop (s.data.length - t.data.length) = t.data)

/-- Drop the last `k` characters of a string (the effect of Node
`basename(name, suffix)` when the suffix is stripped). -/
def strDropRight (s : String) (k : Nat) : String :=
  ⟨s.data.take (s.data.length - k)⟩

/-- Decimal digit character (used to render numbers the way JavaScript
template literals render them). -/
def digitChar (d : Nat) : Char := Char.ofNat (48 + d)

/-- Decimal digit list of a natural number, with explicit fuel so that the
definition is structurally recursive (the fuel `n + 1` always suffices). -/
def natDecDigitsGo : Nat → Nat → List Char
  | 0, _ => []
  | fuel + 1, n =>
    if n < 10 then [digitChar n]
    else natDecDigitsGo fuel (n / 10) ++ [digitChar (n % 10)]

/-- Decimal digit list of a natural number (semantics of JavaScript
`n.toString()` for a non-negative integer). -/
def natDecDigits (n : Nat) : List Char := natDecDigitsGo (n + 1) n

/-- Decimal rendering of a natural number as a string. -/
def natDecString (n : Nat) : String := ⟨natDecDigits n⟩

/-- `count` copies of `s` concatenated. -/
def strRepeat (s : String) : Nat → String
  | 0 => ""
  | k + 1 => s ++ strRepeat s k

/-- Semantics of JavaScript `s.repeat(count)`: throws a RangeError
(modelled as `none`) when the count is negative. -/
def jsStrRepeat (s : String) (count : Int) : Option String :=
  if count < 0 then none else some (strRepeat s count.toNat)

/-! ## Configuration (the `Config` interface and `DEFAULT_CONFIG`) -/

/-- The `Config` interface of src/index.ts, fields in source order. -/
structure Config where
  directory : String
  updateInterval : Nat
  stickers : Bool
  patches : Bool
  graffiti : Bool
  characters : Bool
  musicKits : Bool
  cases : Bool
  tools : Bool
  statusIcons : Bool
  weapons : Bool
  otherWeapons : Bool
  setIcons : Bool
  seasonIcons : Bool
  premierSeasons : Bool
  tournaments : Bool
  keyChains : Bool
  logLevel : String
  source2Viewer : String
  depotDownloader : String
  fileList : String
deriving DecidableEq

/-- `DEFAULT_CONFIG` from src/index.ts (fields in the order declared by
`Config` above). -/
def DEFAULT_CONFIG : Config :=
  ⟨"data", 30000, true, true, true, true, true, true, true, true, true,
   true, true, true, true, true, true, "info", "Source2Viewer-CLI",
   "DepotDownloader", "filelist.txt"⟩

/-- `ECON_PATH` constant. -/
def ECON_PATH : String := "panorama/images/econ"

/-- The `neededDirectories` record: for each category, the flag that enables
it and the logical directory prefix of its assets, in the insertion order of
the source record. -/
def neededDirectoriesTable : List ((Config → Bool) × String) :=
  [(Config.stickers, ECON_PATH ++ "/stickers"),
   (Config.patches, ECON_PATH ++ "/patches"),
   (Config.graffiti, ECON_PATH ++ "/stickers/default"),
   (Config.characters, ECON_PATH ++ "/characters"),
   (Config.musicKits, ECON_PATH ++ "/music_kits"),
   (Config.cases, ECON_PATH ++ "/weapon_cases"),
   (Config.tools, ECON_PATH ++ "/tools"),
   (Config.statusIcons, ECON_PATH ++ "/status_icons"),
   (Config.weapons, ECON_PATH ++ "/default_generated"),
   (Config.otherWeapons, ECON_PATH ++ "/weapons"),
   (Config.seasonIcons, ECON_PATH ++ "/season_icons"),
   (Config.premierSeasons, ECON_PATH ++ "/premier_seasons"),
   (Config.tournaments, ECON_PATH ++ "/tournaments"),
   (Config.setIcons, ECON_PATH ++ "/set_icons"),
   (Config.keyChains, ECON_PATH ++ "/keychains")]

/-- The directory prefixes of the categories whose flag is enabled, in table
order: `Object.keys(neededDirectories).filter((f) => !!config[f]).map(...)`. -/
def enabledDirs (c : Config) : List String :=
  (neededDirectoriesTable.filter (fun e => e.1 c)).map (fun e => e.2)

/-- The `neededFiles` record values (always-required fixed logical paths). -/
def neededFilesList : List String := ["scripts/items/items_game.txt"]

/-- Semantics of the regular expression of `neededFilePatterns` (anchored:
literal prefix `resource/csgo_`, then at least one character none of which
is a slash, then literal suffix `.txt`). -/
def matchesCsgoLoc (s : String) : Bool :=
  let pre := "resource/csgo_".data
  let suf := ".txt".data
  let l := s.data
  decide (pre.length + suf.length < l.length) &&
  decide (l.take pre.length = pre) &&
  decide (l.drop (l.length - suf.length) = suf) &&
  ((l.drop pre.length).take (l.length - suf.length - pre.length)).all
    (fun c => decide (c ≠ '/'))

/-- The `neededFilePatterns` array, as decidable match functions. -/
def neededFilePatterns : List (String → Bool) := [matchesCsgoLoc]

/-! ## Archive index model and selection engine (`getRequiredVPKFiles`) -/

/-- One entry of the loaded vpk directory: a `this.vpkDir.files` element
together with `this.vpkDir.tree[fileName].archiveIndex`. -/
structure IndexEntry where
  logicalPath : String
  segmentId : Nat
deriving DecidableEq

/-- The condition of the `if` in `getRequiredVPKFiles`: some enabled
directory prefix matches, or the path is in the fixed-file lookup, or some
pattern matches. -/
def requiredB (c : Config) (path : String) : Bool :=
  (enabledDirs c).any (fun d => startsWithB path d) ||
  decide (path ∈ neededFilesList) ||
  neededFilePatterns.any (fun pt => pt path)

/-- `getRequiredVPKFiles`: collect the archive index of every required
entry, deduplicated (the source uses a record keyed by the index, keeping
the first occurrence) and sorted ascending (`.sort((a, b) => a - b)`). -/
def getRequiredVPKFiles (c : Config) (index : List IndexEntry) : List Nat :=
  List.insertionSort (· ≤ ·)
    (((index.filter (fun e => requiredB c e.logicalPath)).map
      (fun e => e.segmentId)).dedup)

/-- The scenario selection of spec section 8: only the stickers category
flag is enabled, everything else as in `DEFAULT_CONFIG`. -/
def scenarioConfig : Config :=
  ⟨"data", 30000, true, false, false, false, false, false, false, false,
   false, false, false, false, false, false, false, "info",
   "Source2Viewer-CLI", "DepotDownloader", "filelist.txt"⟩

/-- The scenario archive index of spec section 8. -/
def scenarioIndex : List IndexEntry :=
  [⟨"econ/stickers/a.png", 3⟩,
   ⟨"econ/weapons/b.png", 7⟩,
   ⟨"scripts/items/items_game.txt", 3⟩]

/-! ## Fetch orchestrator and manifest lifecycle -/

/-- The per-process manifest path
`directory ++ "/" ++ fileList ++ "-" ++ pid` used by `update`,
`downloadVPKFiles` and `downloadFiles`. -/
def manifestPathFor (c : Config) (pid : Nat) : String :=
  c.directory ++ "/" ++ c.fileList ++ "-" ++ natDecString pid

/-- `writeFileSync` on a filesystem modelled as the list of present paths. -/
def fsWrite (p : String) (fs : List String) : List String :=
  if p ∈ fs then fs else p :: fs

/-- `unlinkSync` on a filesystem modelled as the list of present paths. -/
def fsUnlink (p : String) (fs : List String) : List String :=
  fs.filter (fun q => decide (q ≠ p))

/-- `downloadFiles`: invokes the external download tool; its promise
rejects when the tool exits non-zero (`reject()` before the fall-through
`resolve()` wins), otherwise resolves. -/
def downloadFilesR (toolOk : Bool) : Except Unit Unit :=
  if toolOk then Except.ok () else Except.error ()

/-- The manifest lifecycle shared by `update` (index fetch, writes the
manifest, awaits `downloadFiles`, unlinks the manifest) and by
`downloadVPKFiles` (segment fetch, same shape): a promise rejection from
`downloadFiles` propagates out of the enclosing async function before the
`unlinkSync` statement is reached. Returns the call outcome and the
filesystem after the call. -/
def fetchWithManifestR (c : Config) (pid : Nat) (toolOk : Bool)
    (fs : List String) : Except Unit Unit × List String :=
  let fs1 := fsWrite (manifestPathFor c pid) fs
  match downloadFilesR toolOk with
  | Except.ok _ => (Except.ok (), fsUnlink (manifestPathFor c pid) fs1)
  | Except.error e => (Except.error e, fs1)

/-! ## Update scheduler (`updateLoop` and `update`) -/

/-- Outcome of the async `update` function: it resolves, rejects (some
awaited step threw), or calls `process.exit`. -/
inductive UpdateResult where
  | resolved : UpdateResult
  | rejected : UpdateResult
  | exited : Nat → UpdateResult
deriving DecidableEq

/-- Outcome of one `updateLoop` entry: either control returns to the event
loop (with the flag telling whether a next cycle was scheduled via
`setTimeout`), or the process exited. -/
inductive RunOutcome where
  | next : Bool → RunOutcome
  | exited : Nat → RunOutcome
deriving DecidableEq

/-- `update` (lines 169-212): when every stage succeeds the function runs to
line 211 and calls `process.exit(0)`; it never resolves normally on the
success path. When a stage rejects (e.g. `downloadFiles`) the rejection
propagates and `update` rejects. -/
def updateR (stagesOk : Bool) : UpdateResult :=
  if stagesOk then UpdateResult.exited 0 else UpdateResult.rejected

/-- `updateLoop` (lines 146-167): with a positive `updateInterval` it runs
`update().then(() => setTimeout(() => this.updateLoop(), ...))`; the `then`
callback runs only if `update` resolves. With `updateInterval = 0` it tries
to load the local vpk directory and runs a single `update` if that fails. -/
def updateLoopR (updateInterval : Nat) (stagesOk vpkPresent : Bool) :
    RunOutcome :=
  if 0 < updateInterval then
    match updateR stagesOk with
    | UpdateResult.resolved => RunOutcome.next true
    | UpdateResult.rejected => RunOutcome.next false
    | UpdateResult.exited c => RunOutcome.exited c
  else
    if vpkPresent then RunOutcome.next false
    else
      match updateR stagesOk with
      | UpdateResult.exited c => RunOutcome.exited c
      | _ => RunOutcome.next false

/-! ## Extraction driver (`dumpFiles`) -/

/-- One element of the batch report collected by `dumpFiles`:
`{ path, success, error? }`. -/
structure DumpOutcome where
  path : String
  success : Bool
  errMsg : Option String
deriving DecidableEq

/-- The per-path promise bodies of `dumpFiles`: each `exec` callback always
resolves, with `success: false` and the error message when the invocation
failed (`execErr path = some message`), with `success: true` otherwise.
`Promise.all` preserves input order, so the report is a map over the paths. -/
def dumpResults (execErr : String → Option String) (paths : List String) :
    List DumpOutcome :=
  paths.map (fun p =>
    match execErr p with
    | some m => ⟨p, false, some m⟩
    | none => ⟨p, true, none⟩)

/-- `pathsToDump` of `dumpFiles` (lines 224-228): enabled category
directories, then the fixed files, then the vpk files matched by the
patterns. -/
def pathsToDump (c : Config) (vpkFiles : List String) : List String :=
  enabledDirs c ++ neededFilesList ++
    vpkFiles.filter (fun f => neededFilePatterns.any (fun pt => pt f))

/-- `dumpFiles` (lines 214-273): the collected batch report. -/
def dumpFilesR (c : Config) (vpkFiles : List String)
    (execErr : String → Option String) : List DumpOutcome :=
  dumpResults execErr (pathsToDump c vpkFiles)

/-! ## Output normalizer (`renameFiles`) -/

/-- The extraction tool suffix marker stripped by `renameFiles`. -/
def marker : String := "_png.png"

/-- A file location: parent directory (as reported by `readdir`) and file
name. `join`, `dirname` and `basename` of well-formed names cancel, so a
rename keeps the parent directory. -/
abbrev Loc := String × String

/-- A directory tree: the files in `readdir` order, each a location with
its content. -/
abbrev Tree := List (Loc × String)

/-- The new name computed for a marker file:
`basename(name, "_png.png") + ".png"`. Node `basename` returns the empty
string when the whole name equals the suffix, so for every name ending in
the eight-character marker the result is the name minus its last eight
characters, followed by `.png` (a file named exactly `_png.png` is renamed
to `.png`). -/
def newNameFor (n : String) : String :=
  strDropRight n 8 ++ ".png"

/-- The rename target of a marker file: same directory, new name. -/
def targetOf (p : Loc) : Loc := (p.1, newNameFor p.2)

/-- Content of the file at a location, if present. -/
def findContent (p : Loc) : Tree → Option String
  | [] => none
  | e :: rest => if e.1 = p then some e.2 else findContent p rest

/-- Remove the file at a location. -/
def removePath (p : Loc) (fs : Tree) : Tree :=
  fs.filter (fun e => decide (e.1 ≠ p))

/-- `fs.rename(old, new)`: moves the file, replacing any file already at
the destination. -/
def renameOne (old new : Loc) (fs : Tree) : Tree :=
  match findContent old fs with
  | some c => removePath new (removePath old fs) ++ [(new, c)]
  | none => fs

/-- The loop body of `renameFiles` for one `readdir` entry: marker files
are renamed to their stripped name, other files are untouched. -/
def processEntry (fs : Tree) (p : Loc) : Tree :=
  if endsWithB p.2 marker then renameOne p (targetOf p) fs else fs

/-- The `renameFiles` loop over a fixed `readdir` snapshot. -/
def renameFilesOn (snap : List Loc) (fs : Tree) : Tree :=
  snap.foldl processEntry fs

/-- `renameFiles` (lines 275-297): snapshot the tree with `readdir`, then
rename every marker file in snapshot order. -/
def renameFiles (fs : Tree) : Tree :=
  renameFilesOn (fs.map (fun e => e.1)) fs

/-- Doubled marker: a name ending in this is renamed to a name that still
ends with the marker. -/
def doubledMarker : String := "_png_png.png"

/-- Counterexample tree for idempotence: one file whose name carries a
doubled marker. -/
def c6Tree : Tree := [(("data", "x_png_png.png"), "c")]

/-- Counterexample tree for the frame property: a marker file strips to the
name of an existing plain file and overwrites it. -/
def c9Tree : Tree := [(("data", "a.png"), "c1"), (("data", "a_png.png"), "c2")]

/-- Witness tree for the amended idempotence property (no doubled marker). -/
def c6WitnessTree : Tree := [(("d", "a_png.png"), "c")]

/-- Witness tree for the amended frame property: the marker file renames to
`a.png`, which does not collide with the plain file `b.png`. -/
def c9WitnessTree : Tree := [(("d", "b.png"), "c1"), (("d", "a_png.png"), "c2")]

/-- Witness invocation outcome for the extraction driver: the spec section 8
scenario where only `econ/patches` fails. -/
def c5ExecErr : String → Option String :=
  fun p => if p = "econ/patches" then some "boom" else none

/-- Witness path list for the extraction driver scenario. -/
def c5Paths : List String := ["econ/stickers", "econ/patches", "econ/tools"]

/-! ## Platform resolution (`getPlatform`) and binary acquisition (`getBinary`) -/

/-- The first switch of `getPlatform` over `os.platform()`. -/
def osNameOf (p : String) : String :=
  if p = "win32" then "windows"
  else if p = "darwin" then "macos"
  else if p = "linux" then "linux"
  else "unknown"

/-- The second switch of `getPlatform` over `os.arch()`. -/
def archNameOf (a : String) : String :=
  if a = "x64" then "x64"
  else if a = "arm64" then "arm64"
  else if a = "arm" then "arm"
  else "unknown"

/-- `getPlatform` (lines 299-335), parameterized by the values of
`os.platform()` and `os.arch()`. -/
def getPlatform (p a : String) : String :=
  osNameOf p ++ "-" ++ archNameOf a

/-- Whether `getBinary` (lines 378-384) reaches the `chmodSync` call: it
returns early exactly when the string returned by `getPlatform` equals
`"win32"`. -/
def chmodPerformed (p a : String) : Bool :=
  if getPlatform p a = "win32" then false else true

/-! ## Segment file name padding (`downloadVPKFiles`, lines 434-442) -/

/-- `"0".repeat(3 - archiveIndex.toString().length)` followed by the
decimal rendering of the index; `none` when `repeat` throws. -/
def paddedIndex (i : Nat) : Option String :=
  (jsStrRepeat "0" (3 - ((natDecDigits i).length : Int))).map
    (fun pad => pad ++ natDecString i)

/-- The manifest line `game\csgo\pak01_<padded>.vpk` pushed for a required
segment id; `none` when the padding expression throws. -/
def manifestLineFor (i : Nat) : Option String :=
  (paddedIndex i).map (fun p => "game\\csgo\\pak01_" ++ p ++ ".vpk")

/-- The id zero-padded to (at least) three decimal digits, as a plain
definition used to state what `paddedIndex` produces. -/
def padTo3 (i : Nat) : String :=
  String.mk (List.replicate (3 - (natDecDigits i).length) '0') ++ natDecString i

/-! ## Helper lemmas -/

theorem endsWithB_iff (s t : String) :
    endsWithB s t = true ↔ ∃ u : List Char, s.data = u ++ t.data := by
  unfold endsWithB
  rw [decide_eq_true_iff]
  constructor
  · rintro ⟨hlen, hdrop⟩
    refine ⟨s.data.take (s.data.length - t.data.length), ?_⟩
    conv_lhs => rw [← List.take_append_drop (s.data.length - t.data.length) s.data]
    rw [hdrop]
  · rintro ⟨u, hu⟩
    have hlen : s.data.length = u.length + t.data.length := by
      rw [hu, List.length_append]
    constructor
    · omega
    · rw [hu]
      have h2 : (u ++ t.data).length - t.data.length = u.length := by
        rw [List.length_append]; omega
      rw [h2]
      exact List.drop_left u t.data

theorem requiredB_iff (c : Config) (path : String) :
    requiredB c path = true ↔
      ((∃ d ∈ enabledDirs c, startsWithB path d = true) ∨
       path ∈ neededFilesList ∨
       (∃ pt ∈ neededFilePatterns, pt path = true)) := by
  unfold requiredB
  simp [List.any_eq_true, or_assoc]

/-! ## C1: selection engine membership plus the spec scenario -/

/-- C1: for every configuration and archive index, a segment id is in the
result of `getRequiredVPKFiles` exactly when some index entry with that
segment id has a logical path that starts with an enabled category
directory prefix, equals an always-required fixed path, or matches an
always-required pattern; and on the spec scenario the result is `[3]`. -/
theorem c1_selection_engine :
    (∀ (c : Config) (index : List IndexEntry) (s : Nat),
      s ∈ getRequiredVPKFiles c index ↔
        ∃ e, e ∈ index ∧
          ((∃ d ∈ enabledDirs c, startsWithB e.logicalPath d = true) ∨
           e.logicalPath ∈ neededFilesList ∨
           (∃ pt ∈ neededFilePatterns, pt e.logicalPath = true)) ∧
          e.segmentId = s) ∧
    getRequiredVPKFiles scenarioConfig scenarioIndex = [3] := by
  constructor
  · intro c index s
    unfold getRequiredVPKFiles
    rw [List.Perm.mem_iff (List.perm_insertionSort _ _), List.mem_dedup,
      List.mem_map]
    constructor
    · rintro ⟨e, he, hs⟩
      rw [List.mem_filter] at he
      exact ⟨e, he.1, (requiredB_iff c e.logicalPath).mp he.2, hs⟩
    · rintro ⟨e, he, hreq, hs⟩
      exact ⟨e, List.mem_filter.mpr ⟨he, (requiredB_iff c e.logicalPath).mpr hreq⟩, hs⟩
  · decide

/-! ## C3: the result is ascending, duplicate-free and deterministic -/

/-- C3: `getRequiredVPKFiles` always returns an ascending, duplicate-free
list of segment ids, and as a pure function it returns the identical list
on repeated calls with identical inputs. -/
theorem c3_sorted_nodup_deterministic :
    ∀ (c : Config) (index : List IndexEntry),
      List.Sorted (· ≤ ·) (getRequiredVPKFiles c index) ∧
      (getRequiredVPKFiles c index).Nodup ∧
      getRequiredVPKFiles c index = getRequiredVPKFiles c index := by
  intro c index
  refine ⟨List.sorted_insertionSort _ _, ?_, rfl⟩
  exact (List.perm_insertionSort _ _).nodup_iff.mpr (List.nodup_dedup _)

/-! ## C7: platform naming -/

theorem osNameOf_cases (p : String) :
    osNameOf p = "windows" ∨ osNameOf p = "macos" ∨ osNameOf p = "linux" ∨
    osNameOf p = "unknown" := by
  unfold osNameOf
  split_ifs <;> simp

theorem archNameOf_cases (a : String) :
    archNameOf a = "x64" ∨ archNameOf a = "arm64" ∨ archNameOf a = "arm" ∨
    archNameOf a = "unknown" := by
  unfold archNameOf
  split_ifs <;> simp

theorem osNameOf_eq_unknown_iff (p : String) :
    osNameOf p = "unknown" ↔ ¬(p = "win32" ∨ p = "darwin" ∨ p = "linux") := by
  unfold osNameOf
  split_ifs with h1 h2 h3
  · subst h1; decide
  · subst h2; decide
  · subst h3; decide
  · simp [h1, h2, h3]

theorem archNameOf_eq_unknown_iff (a : String) :
    archNameOf a = "unknown" ↔ ¬(a = "x64" ∨ a = "arm64" ∨ a = "arm") := by
  unfold archNameOf
  split_ifs with h1 h2 h3
  · subst h1; decide
  · subst h2; decide
  · subst h3; decide
  · simp [h1, h2, h3]

/-- C7 counterexample: with an unrecognized operating system but a
recognized architecture, `getPlatform` returns `"unknown-x64"`, not
`"unknown-unknown"` as the claim requires whenever either component is
unrecognized. -/
theorem c7_counterexample :
    getPlatform "freebsd" "x64" = "unknown-x64" ∧
    getPlatform "freebsd" "x64" ≠ "unknown-unknown" ∧
    ¬("freebsd" = "win32" ∨ "freebsd" = "darwin" ∨ "freebsd" = "linux") := by
  decide

/-- C7 amended: when both components are recognized the result is one of
the nine fixed table entries; the result is `"unknown-unknown"` exactly
when both components are unrecognized (each component resolves to
`"unknown"` independently of the other). -/
theorem c7_platform_table :
    ∀ p a : String,
      ((p = "win32" ∨ p = "darwin" ∨ p = "linux") →
       (a = "x64" ∨ a = "arm64" ∨ a = "arm") →
        getPlatform p a ∈
          ["windows-x64", "windows-arm64", "windows-arm",
           "macos-x64", "macos-arm64", "macos-arm",
           "linux-x64", "linux-arm64", "linux-arm"]) ∧
      (getPlatform p a = "unknown-unknown" ↔
        (¬(p = "win32" ∨ p = "darwin" ∨ p = "linux") ∧
         ¬(a = "x64" ∨ a = "arm64" ∨ a = "arm"))) := by
  intro p a
  constructor
  · rintro (rfl | rfl | rfl) (rfl | rfl | rfl) <;> decide
  · constructor
    · intro h
      unfold getPlatform at h
      rcases osNameOf_cases p with hx | hx | hx | hx <;>
        rcases archNameOf_cases a with hy | hy | hy | hy <;>
        rw [hx, hy] at h <;>
        first
          | exact absurd h (by decide)
          | exact ⟨(osNameOf_eq_unknown_iff p).mp hx,
              (archNameOf_eq_unknown_iff a).mp hy⟩
    · rintro ⟨hp, ha⟩
      unfold getPlatform
      rw [(osNameOf_eq_unknown_iff p).mpr hp, (archNameOf_eq_unknown_iff a).mpr ha]
      decide

/-- C7 witness: the amended theorem applied at the concrete recognized
input `("linux", "arm")`. -/
theorem c7_platform_table_witness :
    getPlatform "linux" "arm" ∈
      ["windows-x64", "windows-arm64", "windows-arm",
       "macos-x64", "macos-arm64", "macos-arm",
       "linux-x64", "linux-arm64", "linux-arm"] :=
  (c7_platform_table "linux" "arm").1 (Or.inr (Or.inr rfl)) (Or.inr (Or.inr rfl))

/-! ## C8: the chmod guard in getBinary -/

/-- C8 (code bug): `getBinary` compares the combined string returned by
`getPlatform` (always of the form `os-arch`) with `"win32"`, which never
matches, so the `chmodSync` step runs on every platform — including
Windows, where the claim says it is skipped. -/
theorem c8_chmod_always_runs :
    chmodPerformed "win32" "x64" = true ∧
    ∀ p a : String, chmodPerformed p a = true := by
  refine ⟨by decide, ?_⟩
  intro p a
  unfold chmodPerformed getPlatform
  rcases osNameOf_cases p with hx | hx | hx | hx <;>
    rcases archNameOf_cases a with hy | hy | hy | hy <;>
    rw [hx, hy] <;> decide

/-! ## C4: the update scheduler in recurring mode -/

/-- C4 (code bug): in recurring mode (positive update interval) a
successful cycle reaches the unconditional `process.exit(0)` at the end of
`update`, so the process terminates with code 0 and the `setTimeout`
rescheduling callback never runs; no input at all makes `updateLoop`
schedule a next cycle. -/
theorem c4_recurring_mode_exits :
    updateLoopR 30000 true false = RunOutcome.exited 0 ∧
    ∀ (interval : Nat) (stagesOk vpkPresent : Bool),
      decide (updateLoopR interval stagesOk vpkPresent = RunOutcome.next true) =
        false := by
  refine ⟨by decide, ?_⟩
  intro interval stagesOk vpkPresent
  cases stagesOk <;> cases vpkPresent <;>
    by_cases h : 0 < interval <;>
    simp [updateLoopR, updateR, h]

/-! ## C2: manifest lifecycle of the fetch orchestrator -/

/-- C2 counterexample: when the external download tool fails, the fetch
call rejects and the per-process manifest file is still present on disk
after the call. -/
theorem c2_counterexample :
    (fetchWithManifestR DEFAULT_CONFIG 42 false []).1 = Except.error () ∧
    manifestPathFor DEFAULT_CONFIG 42 ∈
      (fetchWithManifestR DEFAULT_CONFIG 42 false []).2 := by
  refine ⟨rfl, ?_⟩
  decide

/-- C2 amended: after a fetch-orchestrator call the manifest file is
present on disk exactly when the external tool failed — it is deleted on
the success path, and left behind when the rejection propagates before the
`unlinkSync` statement. -/
theorem c2_manifest_presence :
    ∀ (c : Config) (pid : Nat) (toolOk : Bool) (fs : List String),
      decide (manifestPathFor c pid ∈ (fetchWithManifestR c pid toolOk fs).2) =
        !toolOk := by
  intro c pid toolOk fs
  cases toolOk
  · rw [Bool.not_false, decide_eq_true_iff]
    show manifestPathFor c pid ∈ fsWrite (manifestPathFor c pid) fs
    unfold fsWrite
    split_ifs with h
    · exact h
    · exact List.mem_cons_self _ _
  · rw [Bool.not_true, decide_eq_false_iff_not]
    show manifestPathFor c pid ∉ fsUnlink (manifestPathFor c pid) _
    unfold fsUnlink
    simp [List.mem_filter]

/-! ## C10: decimal rendering length and the padding expression -/

theorem natDecDigitsGo_succ_small (f n : Nat) (h : n < 10) :
    natDecDigitsGo (f + 1) n = [digitChar n] := by
  simp only [natDecDigitsGo]
  rw [if_pos h]

theorem natDecDigitsGo_succ_large (f n : Nat) (h : ¬ n < 10) :
    natDecDigitsGo (f + 1) n =
      natDecDigitsGo f (n / 10) ++ [digitChar (n % 10)] := by
  simp only [natDecDigitsGo]
  rw [if_neg h]

theorem natDecDigitsGo_len_pos (f n : Nat) (hf : n < f) :
    0 < (natDecDigitsGo f n).length := by
  cases f with
  | zero => omega
  | succ f' =>
    by_cases h : n < 10
    · rw [natDecDigitsGo_succ_small _ _ h]; simp
    · rw [natDecDigitsGo_succ_large _ _ h]; simp

theorem natDecDigitsGo_len_eq1 (f n : Nat) (hf : n < f) (h : n < 10) :
    (natDecDigitsGo f n).length = 1 := by
  cases f with
  | zero => omega
  | succ f' => rw [natDecDigitsGo_succ_small _ _ h]; rfl

theorem natDecDigitsGo_len_le2 (f n : Nat) (hf : n < f) (h : n < 100) :
    (natDecDigitsGo f n).length ≤ 2 := by
  cases f with
  | zero => omega
  | succ f' =>
    by_cases h10 : n < 10
    · rw [natDecDigitsGo_succ_small _ _ h10]; simp
    · rw [natDecDigitsGo_succ_large _ _ h10, List.length_append]
      have h1 : n / 10 < 10 := by omega
      have h2 : n / 10 < f' := by omega
      rw [natDecDigitsGo_len_eq1 f' (n / 10) h2 h1]
      simp

theorem natDecDigitsGo_len_le3 (f n : Nat) (hf : n < f) (h : n < 1000) :
    (natDecDigitsGo f n).length ≤ 3 := by
  cases f with
  | zero => omega
  | succ f' =>
    by_cases h10 : n < 10
    · rw [natDecDigitsGo_succ_small _ _ h10]; simp
    · rw [natDecDigitsGo_succ_large _ _ h10, List.length_append]
      have h1 : n / 10 < 100 := by omega
      have h2 : n / 10 < f' := by omega
      have := natDecDigitsGo_len_le2 f' (n / 10) h2 h1
      simp
      omega

theorem natDecDigitsGo_len_ge2 (f n : Nat) (hf : n < f) (h : 10 ≤ n) :
    2 ≤ (natDecDigitsGo f n).length := by
  cases f with
  | zero => omega
  | succ f' =>
    rw [natDecDigitsGo_succ_large _ _ (by omega), List.length_append]
    have h2 : n / 10 < f' := by omega
    have := natDecDigitsGo_len_pos f' (n / 10) h2
    simp
    omega

theorem natDecDigitsGo_len_ge3 (f n : Nat) (hf : n < f) (h : 100 ≤ n) :
    3 ≤ (natDecDigitsGo f n).length := by
  cases f with
  | zero => omega
  | succ f' =>
    rw [natDecDigitsGo_succ_large _ _ (by omega), List.length_append]
    have h2 : n / 10 < f' := by omega
    have := natDecDigitsGo_len_ge2 f' (n / 10) h2 (by omega)
    simp
    omega

theorem natDecDigitsGo_len_ge4 (f n : Nat) (hf : n < f) (h : 1000 ≤ n) :
    4 ≤ (natDecDigitsGo f n).length := by
  cases f with
  | zero => omega
  | succ f' =>
    rw [natDecDigitsGo_succ_large _ _ (by omega), List.length_append]
    have h2 : n / 10 < f' := by omega
    have := natDecDigitsGo_len_ge3 f' (n / 10) h2 (by omega)
    simp
    omega

theorem natDecDigits_len_le3 (i : Nat) (h : i < 1000) :
    (natDecDigits i).length ≤ 3 :=
  natDecDigitsGo_len_le3 (i + 1) i (Nat.lt_succ_self i) h

theorem natDecDigits_len_ge4 (i : Nat) (h : 1000 ≤ i) :
    4 ≤ (natDecDigits i).length :=
  natDecDigitsGo_len_ge4 (i + 1) i (Nat.lt_succ_self i) h

theorem strRepeat_zeros (k : Nat) :
    strRepeat "0" k = String.mk (List.replicate k '0') := by
  induction k with
  | zero => rfl
  | succ k ih =>
    show "0" ++ strRepeat "0" k = _
    rw [ih]
    apply String.ext
    rw [String.data_append]
    show '0' :: List.replicate k '0' = List.replicate (k + 1) '0'
    rw [List.replicate_succ]

/-- C10: for a segment id below 1000 the manifest line is
`game\csgo\pak01_` followed by the id zero-padded to exactly three decimal
digits and `.vpk`; for an id of four or more decimal digits the padding
expression `"0".repeat(3 - len)` throws (negative repeat count), so the
line is produced exactly for ids 0-999. The padded field has length
`max 3 digits`, i.e. exactly three digits for ids 0-999. -/
theorem c10_manifest_padding :
    ∀ i : Nat,
      manifestLineFor i =
        (if i < 1000 then some ("game\\csgo\\pak01_" ++ padTo3 i ++ ".vpk")
         else none) ∧
      (padTo3 i).length = max 3 (natDecDigits i).length := by
  intro i
  have hlen : (padTo3 i).length = max 3 (natDecDigits i).length := by
    unfold padTo3
    rw [String.length_append]
    show (List.replicate (3 - (natDecDigits i).length) '0').length +
      (natDecDigits i).length = _
    rw [List.length_replicate]
    omega
  refine ⟨?_, hlen⟩
  by_cases h : i < 1000
  · have hd : (natDecDigits i).length ≤ 3 := natDecDigits_len_le3 i h
    rw [if_pos h]
    unfold manifestLineFor paddedIndex jsStrRepeat
    rw [if_neg (show ¬ ((3 : Int) - ((natDecDigits i).length : Int) < 0) by omega)]
    simp only [Option.map_some']
    congr 1
    have htn : ((3 : Int) - ((natDecDigits i).length : Int)).toNat =
        3 - (natDecDigits i).length := by omega
    rw [htn, strRepeat_zeros]
    rfl
  · have hd : 4 ≤ (natDecDigits i).length := natDecDigits_len_ge4 i (by omega)
    rw [if_neg h]
    unfold manifestLineFor paddedIndex jsStrRepeat
    rw [if_pos (show (3 : Int) - ((natDecDigits i).length : Int) < 0 by omega)]
    rfl

/-! ## C5: the extraction driver batch report -/

theorem dumpResults_nil (execErr : String → Option String) :
    dumpResults execErr [] = [] := rfl

theorem dumpResults_cons (execErr : String → Option String) (p : String)
    (rest : List String) :
    dumpResults execErr (p :: rest) =
      (match execErr p with
        | some m => (⟨p, false, some m⟩ : DumpOutcome)
        | none => (⟨p, true, none⟩ : DumpOutcome)) :: dumpResults execErr rest :=
  rfl

/-- C5: for every invocation-outcome assignment and every path list, the
batch report of the extraction driver has one result per input path in
order, the number of failed entries equals the number of failing
invocations, the number of succeeded entries is the rest, and every failed
entry carries the offending path together with the error text of its own
invocation; in particular one failing invocation never removes another
path from the report. -/
theorem c5_dump_batch_report :
    ∀ (execErr : String → Option String) (paths : List String),
      (dumpResults execErr paths).map DumpOutcome.path = paths ∧
      ((dumpResults execErr paths).filter (fun r => !r.success)).length =
        (paths.filter (fun p => (execErr p).isSome)).length ∧
      ((dumpResults execErr paths).filter (fun r => r.success)).length =
        paths.length - (paths.filter (fun p => (execErr p).isSome)).length ∧
      ∀ r ∈ dumpResults execErr paths, r.success = false →
        r.errMsg = execErr r.path := by
  intro execErr paths
  have hmap : (dumpResults execErr paths).map DumpOutcome.path = paths := by
    induction paths with
    | nil => rfl
    | cons p rest ih =>
      rw [dumpResults_cons, List.map_cons, ih]
      cases hp : execErr p <;> rfl
  have hfail : ((dumpResults execErr paths).filter (fun r => !r.success)).length =
      (paths.filter (fun p => (execErr p).isSome)).length := by
    clear hmap
    induction paths with
    | nil => rfl
    | cons p rest ih =>
      rw [dumpResults_cons, List.filter_cons, List.filter_cons]
      cases hp : execErr p <;> simp [ih]
  have htot : (dumpResults execErr paths).length = paths.length := by
    have h := congrArg List.length hmap
    rw [List.length_map] at h
    exact h
  have hcount : ((dumpResults execErr paths).filter (fun r => r.success)).length +
      ((dumpResults execErr paths).filter (fun r => !r.success)).length =
      (dumpResults execErr paths).length := by
    induction dumpResults execErr paths with
    | nil => rfl
    | cons r rest ih =>
      rw [List.filter_cons, List.filter_cons]
      cases hr : r.success <;> simp [hr] <;> omega
  have hfaille : (paths.filter (fun p => (execErr p).isSome)).length ≤ paths.length := by
    exact List.length_filter_le _ _
  have herr : ∀ (ps : List String) r, r ∈ dumpResults execErr ps →
      r.success = false → r.errMsg = execErr r.path := by
    intro ps
    induction ps with
    | nil => intro r hr; exact absurd hr (List.not_mem_nil r)
    | cons p rest ih =>
      intro r hr hf
      rw [dumpResults_cons] at hr
      rcases List.mem_cons.mp hr with h1 | h1
      · cases hp : execErr p
        · rw [hp] at h1
          subst h1
          simp at hf
        · rw [hp] at h1
          subst h1
          exact hp.symm
      · exact ih r h1 hf
  exact ⟨hmap, hfail, by omega, herr paths⟩

/-- C5 witness: the batch-report theorem applied at the concrete scenario
of spec section 8 (three paths, only `econ/patches` failing), discharging
the membership and failure hypotheses at the failed entry. -/
theorem c5_dump_batch_report_witness :
    (⟨"econ/patches", false, some "boom"⟩ : DumpOutcome).errMsg =
      c5ExecErr "econ/patches" :=
  (c5_dump_batch_report c5ExecErr c5Paths).2.2.2
    ⟨"econ/patches", false, some "boom"⟩ (by decide) (by decide)

/-! ## C6 and C9: the output normalizer -/

theorem mem_removePath (q : Loc) (fs : Tree) (e : Loc × String) :
    e ∈ removePath q fs ↔ e ∈ fs ∧ e.1 ≠ q := by
  unfold removePath
  rw [List.mem_filter]
  simp

theorem findContent_none (p : Loc) (fs : Tree)
    (h : findContent p fs = none) : ∀ e ∈ fs, e.1 ≠ p := by
  induction fs with
  | nil => intro e he; exact absurd he (List.not_mem_nil e)
  | cons a rest ih =>
    intro e he
    unfold findContent at h
    by_cases ha : a.1 = p
    · rw [if_pos ha] at h; cases h
    · rw [if_neg ha] at h
      rcases List.mem_cons.mp he with h1 | h1
      · subst h1; exact ha
      · exact ih h e h1

/-- A name that ends with the marker but not with the doubled marker is
renamed to a name that no longer ends with the marker. -/
theorem newNameFor_not_marker (n : String)
    (hm : endsWithB n marker = true)
    (hd : endsWithB n doubledMarker = false) :
    endsWithB (newNameFor n) marker = false := by
  unfold newNameFor
  cases hE : endsWithB (strDropRight n 8 ++ ".png") marker
  · rfl
  · exfalso
    rw [endsWithB_iff] at hE
    obtain ⟨v, hv⟩ := hE
    rw [String.data_append] at hv
    obtain ⟨u, hu⟩ := (endsWithB_iff n marker).mp hm
    have hu_take : (strDropRight n 8).data = u := by
      show n.data.take (n.data.length - 8) = u
      rw [hu, List.length_append]
      have hml : marker.data.length = 8 := by decide
      rw [hml]
      have harith : u.length + 8 - 8 = u.length := by omega
      rw [harith]
      exact List.take_left u marker.data
    rw [hu_take] at hv
    have hmd : marker.data = "_png".data ++ ".png".data := by decide
    rw [hmd, ← List.append_assoc] at hv
    have hcancel : u = v ++ "_png".data := by
      have hlen := congrArg List.length hv
      rw [List.length_append, List.length_append] at hlen
      have := List.append_inj_left hv (by omega)
      exact this
    have hnd : n.data = v ++ doubledMarker.data := by
      rw [hu, hcancel, List.append_assoc]
      have : "_png".data ++ marker.data = doubledMarker.data := by decide
      rw [this]
    have : endsWithB n doubledMarker = true :=
      (endsWithB_iff n doubledMarker).mpr ⟨v, hnd⟩
    rw [hd] at this
    cases this

/-- After processing a full snapshot, every file whose path was obliged to
be in the remaining snapshot is gone or renamed: if all marker-named paths
of the tree occur in the snapshot and no snapshot name carries a doubled
marker, the resulting tree has no marker-named file at all. -/
theorem renameFilesOn_marker_free (snap : List Loc) :
    ∀ fs : Tree,
      (∀ p ∈ snap, endsWithB p.2 marker = true →
        endsWithB p.2 doubledMarker = false) →
      (∀ e ∈ fs, endsWithB e.1.2 marker = true → e.1 ∈ snap) →
      ∀ e ∈ renameFilesOn snap fs, endsWithB e.1.2 marker = false := by
  induction snap with
  | nil =>
    intro fs _ hfs e he
    cases hE : endsWithB e.1.2 marker
    · rfl
    · exact absurd (hfs e he hE) (List.not_mem_nil _)
  | cons p rest ih =>
    intro fs hsnap hfs
    show ∀ e ∈ renameFilesOn rest (processEntry fs p), _
    apply ih
    · intro q hq hm
      exact hsnap q (List.mem_cons_of_mem _ hq) hm
    · intro e he hm
      unfold processEntry at he
      by_cases hpm : endsWithB p.2 marker = true
      · rw [if_pos hpm] at he
        unfold renameOne at he
        cases hfind : findContent p fs with
        | none =>
          rw [hfind] at he
          rcases List.mem_cons.mp (hfs e he hm) with h1 | h1
          · exact absurd h1 (findContent_none p fs hfind e he)
          · exact h1
        | some c =>
          rw [hfind] at he
          rcases List.mem_append.mp he with h1 | h1
          · rw [mem_removePath] at h1
            obtain ⟨h2, _⟩ := h1
            rw [mem_removePath] at h2
            obtain ⟨h3, h4⟩ := h2
            rcases List.mem_cons.mp (hfs e h3 hm) with h5 | h5
            · exact absurd h5 h4
            · exact h5
          · have he2 : e = (targetOf p, c) := List.mem_singleton.mp h1
            subst he2
            have hfree := newNameFor_not_marker p.2 hpm
              (hsnap p (List.mem_cons_self _ _) hpm)
            rw [show (targetOf p, c).1.2 = newNameFor p.2 from rfl] at hm
            rw [hfree] at hm
            cases hm
      · rw [if_neg hpm] at he
        rcases List.mem_cons.mp (hfs e he hm) with h1 | h1
        · exfalso
          apply hpm
          rw [← h1]
          exact hm
        · exact h1

/-- Processing a snapshot none of whose names carries the marker leaves
the tree unchanged. -/
theorem renameFilesOn_no_marker (snap : List Loc) :
    ∀ fs : Tree, (∀ p ∈ snap, endsWithB p.2 marker = false) →
      renameFilesOn snap fs = fs := by
  induction snap with
  | nil => intro fs _; rfl
  | cons p rest ih =>
    intro fs h
    show renameFilesOn rest (processEntry fs p) = fs
    have hp : endsWithB p.2 marker = false := h p (List.mem_cons_self _ _)
    unfold processEntry
    rw [hp]
    simp only [Bool.false_eq_true, if_false]
    exact ih fs (fun q hq => h q (List.mem_cons_of_mem _ hq))

/-- `renameFiles` is the identity on trees without marker-named files. -/
theorem renameFiles_no_marker (fs : Tree)
    (h : ∀ e ∈ fs, endsWithB e.1.2 marker = false) :
    renameFiles fs = fs := by
  unfold renameFiles
  apply renameFilesOn_no_marker
  intro p hp
  obtain ⟨e, he, rfl⟩ := List.mem_map.mp hp
  exact h e he

/-- C6 counterexample: on the tree with the single file
`x_png_png.png`, one run produces `x_png.png` and a second run renames it
again to `x.png`, so running the normalizer twice differs from running it
once. -/
theorem c6_counterexample :
    renameFiles (renameFiles c6Tree) ≠ renameFiles c6Tree := by decide

/-- C6 amended: the output normalizer is idempotent on every tree in which
no file name ends with the doubled marker `_png_png.png` (the only names
whose single renaming still ends with the marker). -/
theorem c6_rename_idempotent :
    ∀ fs : Tree,
      (∀ e ∈ fs, endsWithB e.1.2 doubledMarker = false) →
      renameFiles (renameFiles fs) = renameFiles fs := by
  intro fs hfs
  apply renameFiles_no_marker
  intro e he
  unfold renameFiles at he
  apply renameFilesOn_marker_free (fs.map (fun e => e.1)) fs ?_ ?_ e he
  · intro p hp _
    obtain ⟨m, hm, rfl⟩ := List.mem_map.mp hp
    exact hfs m hm
  · intro e2 he2 _
    exact List.mem_map.mpr ⟨e2, he2, rfl⟩

/-- C6 witness: the amended idempotence theorem applied at the concrete
one-file tree `a_png.png`, whose name has no doubled marker. -/
theorem c6_rename_idempotent_witness :
    renameFiles (renameFiles c6WitnessTree) = renameFiles c6WitnessTree :=
  c6_rename_idempotent c6WitnessTree (by decide)

/-- C9 counterexample: the plain file `a.png` does not survive the
normalizer run on a tree that also contains `a_png.png`, because the
marker file is renamed onto it and overwrites it. -/
theorem c9_counterexample :
    ((("data", "a.png"), "c1") : Loc × String) ∈ c9Tree ∧
    endsWithB "a.png" marker = false ∧
    ((("data", "a.png"), "c1") : Loc × String) ∉ renameFiles c9Tree := by
  decide

/-- C9 amended: the normalizer is a no-op on the empty tree, and it keeps
every non-marker file (same location, same content) provided no marker
file of the tree renames onto that location. -/
theorem c9_non_marker_preserved :
    renameFiles ([] : Tree) = [] ∧
    ∀ (fs : Tree) (e : Loc × String), e ∈ fs →
      endsWithB e.1.2 marker = false →
      (∀ m ∈ fs, endsWithB m.1.2 marker = true → targetOf m.1 ≠ e.1) →
      e ∈ renameFiles fs := by
  refine ⟨rfl, ?_⟩
  intro fs e he hnm hsafe
  have main : ∀ (snap : List Loc) (fs' : Tree), e ∈ fs' →
      (∀ p ∈ snap, endsWithB p.2 marker = true → targetOf p ≠ e.1) →
      e ∈ renameFilesOn snap fs' := by
    intro snap
    induction snap with
    | nil => intro fs' he' _; exact he'
    | cons p rest ih =>
      intro fs' he' hsafe'
      show e ∈ renameFilesOn rest (processEntry fs' p)
      apply ih
      · unfold processEntry
        by_cases hpm : endsWithB p.2 marker = true
        · rw [if_pos hpm]
          unfold renameOne
          cases hfind : findContent p fs' with
          | none => exact he'
          | some c =>
            apply List.mem_append_left
            rw [mem_removePath]
            refine ⟨?_, ?_⟩
            · rw [mem_removePath]
              refine ⟨he', ?_⟩
              intro hq
              rw [← hq] at hpm
              rw [hnm] at hpm
              cases hpm
            · exact (hsafe' p (List.mem_cons_self _ _) hpm).symm
        · rw [if_neg hpm]
          exact he'
      · intro q hq hm
        exact hsafe' q (List.mem_cons_of_mem _ hq) hm
  apply main
  · exact he
  · intro p hp hm
    obtain ⟨m, hmfs, rfl⟩ := List.mem_map.mp hp
    exact hsafe m hmfs hm

/-- C9 witness: the amended frame theorem applied at the concrete tree
with the plain file `b.png` and the non-colliding marker file
`a_png.png`. -/
theorem c9_non_marker_preserved_witness :
    ((("d", "b.png"), "c1") : Loc × String) ∈ renameFiles c9WitnessTree :=
  c9_non_marker_preserved.2 c9WitnessTree (("d", "b.png"), "c1")
    (by decide) (by decide) (by decide)

end Cs2Cdn
